import Mathlib

/-!
A verification development for the Switchboard v2 TypeScript client
(`src/sbv2.ts`).

The definitions below are shallow embeddings of the functions of that file.
Because the source is JavaScript/TypeScript, the embedding makes the relevant
runtime semantics explicit:

* `anchor.BN` (bn.js) values compared with the relational operators `<` / `<=`
  are coerced by `ToPrimitive` (number hint) to their decimal string rendering
  — bn.js defines `toString` but neither `valueOf` returning a primitive nor
  `Symbol.toPrimitive` — and the two strings are then compared lexicographically
  by code units.  `natRepr`, `strLt` and `jsStrLe` model that comparison.
* `Uint8Array` values compared with `<` are likewise coerced via
  `TypedArray.prototype.toString`, i.e. the comma-joined decimal rendering of
  the bytes (`bytesStr`).
* `Array.prototype.sort(comparator)` (ES2019 and later: stable): an element is
  moved to an earlier position only when the comparator returns a negative
  number.  A boolean-returning comparator is coerced `true ↦ 1`, `false ↦ 0`,
  so it never returns a negative number, and the engines' run-detecting stable
  sorts (TimSort in V8, merge sorts elsewhere) then leave the array unchanged.
  `jsSort` models the sort as a stable insertion sort that moves an element
  earlier exactly when the comparator is negative: it agrees with the engines
  both for consistent three-way comparators (the stable result is unique) and
  for the never-negative boolean comparators (the identity).
* `Buffer.compare` is a genuine three-way unsigned lexicographic byte
  comparison, modelled by `bufCmp`.

Addresses (`PublicKey` byte content, `Buffer`s, `Uint8Array`s) are modelled as
`List Nat` of byte values; decimal strings as `List Nat` of UTF-16 code units.
-/

namespace SBV2

/-- Fuel-driven helper for `natRepr`; the fuel `n + 1` is always sufficient. -/
def natReprAux : Nat → Nat → List Nat
  | 0, _ => []
  | fuel + 1, n => if n < 10 then [48 + n] else natReprAux fuel (n / 10) ++ [48 + n % 10]

/-- Decimal rendering of a natural number as its list of UTF-16 code units
(digit zero is code unit 48), matching JavaScript `Number.prototype.toString`
and bn.js `BN.prototype.toString` (default base 10) for non-negative values. -/
def natRepr (n : Nat) : List Nat :=
  natReprAux (n + 1) n

/-- JavaScript string `<`: lexicographic comparison of code-unit sequences
(a proper nonempty extension is greater than its initial segment). -/
def strLt : List Nat → List Nat → Bool
  | [], [] => false
  | [], _ :: _ => true
  | _ :: _, [] => false
  | a :: as, b :: bs => if a < b then true else if b < a then false else strLt as bs

/-- JavaScript `x <= y` on strings: the abstract relational comparison computes
`y < x` and negates it. -/
def jsStrLe (a b : List Nat) : Bool := !(strLt b a)

/-- `TypedArray.prototype.toString` on a `Uint8Array`: the comma-joined decimal
rendering of the elements (code unit 44 is the comma). -/
def bytesStr : List Nat → List Nat
  | [] => []
  | [b] => natRepr b
  | b :: rest => natRepr b ++ 44 :: bytesStr rest

/-- `Buffer.compare`: three-way unsigned lexicographic byte comparison,
returning -1, 0 or 1. -/
def bufCmp : List Nat → List Nat → Int
  | [], [] => 0
  | [], _ :: _ => -1
  | _ :: _, [] => 1
  | a :: as, b :: bs => if a < b then -1 else if b < a then 1 else bufCmp as bs

/-- Insert `x` into `l`, placing it before the first element `y` with
`cmp x y < 0` and after everything else.  This is the position a stable
JavaScript sort gives to an element arriving after the elements of `l`. -/
def jsInsert (cmp : α → α → Int) (x : α) : List α → List α
  | [] => [x]
  | y :: ys => if cmp x y < 0 then x :: y :: ys else y :: jsInsert cmp x ys

/-- Left-to-right driver of `jsSort`. -/
def jsSortAux (cmp : α → α → Int) : List α → List α → List α
  | acc, [] => acc
  | acc, x :: xs => jsSortAux cmp (jsInsert cmp x acc) xs

/-- Model of `Array.prototype.sort(comparator)`: a stable insertion sort in
which an element is moved earlier exactly when the comparator returns a
negative number.  For a consistent three-way comparator this is the (unique)
stable sorted order required by ES2019; for a comparator that never returns a
negative number — in particular a boolean-returning comparator, coerced to
0 or 1 — no element is ever moved, matching the engines' behaviour. -/
def jsSort (cmp : α → α → Int) (l : List α) : List α :=
  jsSortAux cmp [] l

/-- `SwitchboardDecimal` (sbv2.ts): a bn.js arbitrary-precision mantissa and a
JavaScript `number` scale.  Both are exact integers here. -/
structure SwitchboardDecimal where
  mantissa : Int
  scale : Int
deriving DecidableEq

/-- `SwitchboardDecimal.eq`: `this.mantissa.eq(other.mantissa) && this.scale === other.scale`
(bn.js `eq` is numeric equality; `===` on numbers is numeric equality). -/
def SwitchboardDecimal.eq (a b : SwitchboardDecimal) : Bool :=
  a.mantissa == b.mantissa && a.scale == b.scale

/-- A JavaScript `PublicKey` object: `oid` is the object's reference identity
(two distinct allocations have distinct `oid`s even when their byte content is
equal), `bytes` the 32-byte key content.  JavaScript `===`/`!==` on objects is
reference equality, i.e. equality of the whole structure including `oid`. -/
structure PublicKeyObj where
  oid : Nat
  bytes : List Nat
deriving DecidableEq

/-- A `Keypair`: only its `publicKey` field is read by the constructors. -/
structure KeypairObj where
  publicKey : PublicKeyObj
deriving DecidableEq

/-- `AccountParams` (sbv2.ts): the optional `publicKey` and `keypair` fields
(`program` is irrelevant to the validation logic). -/
structure AccountParams where
  publicKey : Option PublicKeyObj
  keypair : Option KeypairObj
deriving DecidableEq

/-- The constructor body shared verbatim by all eight account wrappers
(`ProgramStateAccount`, `AggregatorAccount`, `JobAccount`, `PermissionAccount`,
`OracleQueueAccount`, `LeaseAccount`, `CrankAccount`, `OracleAccount`):
error when both `keypair` and `publicKey` are undefined; error when both are
defined and `params.publicKey !== params.keypair.publicKey` (reference
inequality); otherwise the wrapper's `publicKey` is
`params.publicKey ?? params.keypair.publicKey`.  `className` stands for
`this.constructor.name` in the error messages. -/
def accountConstructor (className : String) (p : AccountParams) : Except String PublicKeyObj :=
  match p.keypair, p.publicKey with
  | none, none =>
      .error (className ++ ": User must provide either a publicKey or keypair for account use.")
  | some kp, some pk =>
      if pk ≠ kp.publicKey then
        .error (className ++ ": provided pubkey and keypair mismatch.")
      else .ok pk
  | some kp, none => .ok kp.publicKey
  | none, some pk => .ok pk

/-- True exactly on the `error` constructor. -/
def isErr : Except ε α → Bool
  | .error _ => true
  | .ok _ => false

/-- `CrankRow` (sbv2.ts): an aggregator pubkey (its 32 raw bytes) and the
`nextTimestamp` it is ordered by (an `anchor.BN` of unix seconds). -/
structure CrankRow where
  pubkey : List Nat
  nextTimestamp : Nat
deriving DecidableEq

/-- The crank data read by `CrankAccount.loadData()`: the entry array `pqData`
and the live-entry count `pqSize`. -/
structure CrankState where
  pqData : List CrankRow
  pqSize : Nat
deriving DecidableEq

/-- The first sort comparator of `peakReady`:
`(a, b) => a.nextTimestamp < b.nextTimestamp`.  The two `anchor.BN`s are
coerced to decimal strings and compared as strings, and the boolean result is
coerced to 1 (`true`) or 0 (`false`) — never a negative number. -/
def crankDueCmp (a b : CrankRow) : Int :=
  if strLt (natRepr a.nextTimestamp) (natRepr b.nextTimestamp) then 1 else 0

/-- The second sort comparator of `peakReady`:
`(a, b) => a.pubkey.toBytes() < b.pubkey.toBytes()`.  The two `Uint8Array`s
are coerced to their comma-joined decimal strings and compared as strings, and
the boolean result is coerced to 1 or 0 — never a negative number. -/
def crankPubkeyCmp (a b : CrankRow) : Int :=
  if strLt (bytesStr a.pubkey) (bytesStr b.pubkey) then 1 else 0

/-- `CrankAccount.peakReady(n)` (sbv2.ts lines 1446-1462), the ready-set
selector.  `nowMs` is the value of the `Date.now()` call the function itself
performs (milliseconds); the source function takes only `n`.  Chain:
`pqData.slice(0, pqSize)` (= `take pqSize`), then
`.filter(item => item.nextTimestamp <= new BN(Math.floor(now / 1000)))` — a
BN-to-BN relational comparison, hence the decimal-string comparison
`jsStrLe` — then the two sorts with boolean comparators, `.slice(0, n)`
between them, and `.map(item => item.pubkey)`. -/
def CrankAccount.peakReady (crank : CrankState) (n : Nat) (nowMs : Nat) : List (List Nat) :=
  let nowSec := nowMs / 1000
  (jsSort crankPubkeyCmp
    ((jsSort crankDueCmp
      ((crank.pqData.take crank.pqSize).filter
        (fun item => jsStrLe (natRepr item.nextTimestamp) (natRepr nowSec)))).take n)).map
    CrankRow.pubkey

/-- The lease record read by `LeaseAccount.loadData()`: only its `escrow`
address is used by `CrankAccount.pop`. -/
structure LeaseRecord where
  escrow : List Nat
deriving DecidableEq

/-- The account-accumulation loop of `CrankAccount.pop` (sbv2.ts lines
1400-1414): for each selected `feedKey`, the lease address is derived
(`leaseOf feedKey` stands for `LeaseAccount.fromSeed(program, feedKey,
crank.queuePubkey)`), the lease record is fetched from the remote store
(`store`), and `[leaseAddress, escrow]` is appended to the accumulator.  A
failed fetch (`none`, anchor's account-does-not-exist rejection naming the
lease address) aborts the whole loop with that lease address; nothing after
the failing target is processed and no list is produced. -/
def popLoop (leaseOf : List Nat → List Nat) (store : List Nat → Option LeaseRecord) :
    List (List Nat) → List (List Nat) → Except (List Nat) (List (List Nat))
  | acc, [] => .ok acc
  | acc, feedKey :: rest =>
      match store (leaseOf feedKey) with
      | none => .error (leaseOf feedKey)
      | some lease => popLoop leaseOf store (acc ++ [leaseOf feedKey, lease.escrow]) rest

/-- The `remainingAccounts` assembly of `CrankAccount.pop` (sbv2.ts lines
1397-1439): start from a copy of the selected target addresses, run the
accumulation loop, and sort the combined list with
`(a, b) => a.toBuffer().compare(b.toBuffer())` — `Buffer.compare` is a proper
three-way unsigned lexicographic byte comparison, so this sort genuinely
orders by raw byte value. -/
def CrankAccount.popRemainingAccounts (leaseOf : List Nat → List Nat)
    (store : List Nat → Option LeaseRecord) (selected : List (List Nat)) :
    Except (List Nat) (List (List Nat)) :=
  Except.map (jsSort bufCmp) (popLoop leaseOf store selected selected)

/-- The code units of a seed string literal. -/
def strBytes (s : String) : List Nat := s.data.map Char.toNat

/-- Modelled from the spec: the bump-search loop of the program-derived
address primitive (`anchor.utils.publicKey.findProgramAddressSync`), which is
absent from src — sbv2.ts only calls it.  Per spec §4.2 the derivation
"repeatedly hashes (seedTag, partyA-bytes, partyB-bytes, bumpCandidate,
programId) decreasing bumpCandidate from 255 until the result fails the
on-curve validity predicate".  `create` abstracts the hashing primitive
(seeds, with the bump candidate appended as a one-byte seed, plus the program
identity), `onCurve` the validity predicate.  `fuel` counts the remaining
candidates; the candidate tried at fuel `f + 1` is bump `f`, so the search
starts at 255 and `none` is the `DerivationExhausted` outcome. -/
def tryFindProgramAddress (create : List (List Nat) → List Nat → List Nat)
    (onCurve : List Nat → Bool) (seeds : List (List Nat)) (programId : List Nat) :
    Nat → Option (List Nat × Nat)
  | 0 => none
  | fuel + 1 =>
      if onCurve (create (seeds ++ [[fuel]]) programId) then
        tryFindProgramAddress create onCurve seeds programId fuel
      else some (create (seeds ++ [[fuel]]) programId, fuel)

/-- Modelled from the spec: `findProgramAddressSync` tries bumps 255 down
to 0. -/
def findProgramAddressSync (create : List (List Nat) → List Nat → List Nat)
    (onCurve : List Nat → Bool) (seeds : List (List Nat)) (programId : List Nat) :
    Option (List Nat × Nat) :=
  tryFindProgramAddress create onCurve seeds programId 256

/-- `ProgramStateAccount.fromSeed` (sbv2.ts lines 124-136): derive the
singleton state address from the single seed `"SB_STATE_V1"` and the program
identity. -/
def ProgramStateAccount.fromSeed (create : List (List Nat) → List Nat → List Nat)
    (onCurve : List Nat → Bool) (programId : List Nat) : Option (List Nat × Nat) :=
  findProgramAddressSync create onCurve [strBytes "SB_STATE_V1"] programId

/-- `LeaseAccount.fromSeed` (sbv2.ts lines 1160-1170): derive the lease
relation address from the seed `"lease_account"` and the (leaser, target)
address pair. -/
def LeaseAccount.fromSeed (create : List (List Nat) → List Nat → List Nat)
    (onCurve : List Nat → Bool) (programId leaser target : List Nat) :
    Option (List Nat × Nat) :=
  findProgramAddressSync create onCurve [strBytes "lease_account", leaser, target] programId

/-- Inserting with `jsInsert` permutes: the result is the element consed onto
the original list, up to permutation. -/
theorem jsInsert_perm (cmp : α → α → Int) (x : α) :
    ∀ l : List α, (jsInsert cmp x l).Perm (x :: l)
  | [] => List.Perm.refl _
  | y :: ys => by
      by_cases h : cmp x y < 0
      · simp only [jsInsert, if_pos h]
        exact List.Perm.refl _
      · simp only [jsInsert, if_neg h]
        exact ((jsInsert_perm cmp x ys).cons y).trans (List.Perm.swap x y ys)

/-- The sort driver permutes the accumulator followed by the remaining input. -/
theorem jsSortAux_perm (cmp : α → α → Int) :
    ∀ (l acc : List α), (jsSortAux cmp acc l).Perm (acc ++ l)
  | [], acc => by simp [jsSortAux]
  | x :: xs, acc => by
      simp only [jsSortAux]
      exact ((jsSortAux_perm cmp xs (jsInsert cmp x acc)).trans
        (((jsInsert_perm cmp x acc).append_right xs).trans List.perm_middle.symm))

/-- `jsSort` returns a permutation of its input. -/
theorem jsSort_perm (cmp : α → α → Int) (l : List α) : (jsSort cmp l).Perm l := by
  simpa using jsSortAux_perm cmp l []

/-- `jsInsert` preserves sortedness for a comparator that is antisymmetric
under argument swap and transitive on non-positive results. -/
theorem jsInsert_pairwise (cmp : α → α → Int)
    (hswap : ∀ a b, cmp b a = -cmp a b)
    (htr : ∀ a b c, cmp a b ≤ 0 → cmp b c ≤ 0 → cmp a c ≤ 0) (x : α) :
    ∀ l : List α, l.Pairwise (fun a b => cmp a b ≤ 0) →
      (jsInsert cmp x l).Pairwise (fun a b => cmp a b ≤ 0)
  | [], _ => by simp [jsInsert]
  | y :: ys, h => by
      rw [List.pairwise_cons] at h
      obtain ⟨hy, hys⟩ := h
      by_cases hxy : cmp x y < 0
      · simp only [jsInsert, if_pos hxy]
        refine List.Pairwise.cons ?_ (List.Pairwise.cons hy hys)
        intro z hz
        rcases List.mem_cons.mp hz with rfl | hz2
        · omega
        · exact htr x y z (by omega) (hy z hz2)
      · simp only [jsInsert, if_neg hxy]
        refine List.Pairwise.cons ?_ (jsInsert_pairwise cmp hswap htr x ys hys)
        intro z hz
        rcases List.mem_cons.mp ((jsInsert_perm cmp x ys).mem_iff.mp hz) with rfl | hz2
        · have hs := hswap z y
          omega
        · exact hy z hz2

/-- The sort driver preserves sortedness of the accumulator. -/
theorem jsSortAux_pairwise (cmp : α → α → Int)
    (hswap : ∀ a b, cmp b a = -cmp a b)
    (htr : ∀ a b c, cmp a b ≤ 0 → cmp b c ≤ 0 → cmp a c ≤ 0) :
    ∀ (l acc : List α), acc.Pairwise (fun a b => cmp a b ≤ 0) →
      (jsSortAux cmp acc l).Pairwise (fun a b => cmp a b ≤ 0)
  | [], _, h => h
  | x :: xs, acc, h =>
      jsSortAux_pairwise cmp hswap htr xs (jsInsert cmp x acc)
        (jsInsert_pairwise cmp hswap htr x acc h)

/-- With a swap-antisymmetric, transitive three-way comparator, `jsSort`
produces a list sorted by it. -/
theorem jsSort_pairwise (cmp : α → α → Int)
    (hswap : ∀ a b, cmp b a = -cmp a b)
    (htr : ∀ a b c, cmp a b ≤ 0 → cmp b c ≤ 0 → cmp a c ≤ 0) (l : List α) :
    (jsSort cmp l).Pairwise (fun a b => cmp a b ≤ 0) :=
  jsSortAux_pairwise cmp hswap htr l [] List.Pairwise.nil

/-- `bufCmp` swaps sign when its arguments are exchanged. -/
theorem bufCmp_swap : ∀ a b : List Nat, bufCmp b a = -bufCmp a b
  | [], [] => rfl
  | [], _ :: _ => rfl
  | _ :: _, [] => rfl
  | a :: as, b :: bs => by
      simp only [bufCmp]
      rcases Nat.lt_trichotomy a b with h | h | h
      · rw [if_neg (Nat.lt_asymm h), if_pos h, if_pos h]
        decide
      · subst h
        rw [if_neg (Nat.lt_irrefl a), if_neg (Nat.lt_irrefl a), if_neg (Nat.lt_irrefl a),
          if_neg (Nat.lt_irrefl a)]
        exact bufCmp_swap as bs
      · rw [if_pos h, if_neg (Nat.lt_asymm h), if_pos h]

/-- `bufCmp` is transitive on non-positive results. -/
theorem bufCmp_le_trans : ∀ a b c : List Nat,
    bufCmp a b ≤ 0 → bufCmp b c ≤ 0 → bufCmp a c ≤ 0
  | [], _, c, _, _ => by cases c <;> simp [bufCmp]
  | _ :: _, [], _, h1, _ => by simp [bufCmp] at h1
  | _ :: _, _ :: _, [], _, h2 => by simp [bufCmp] at h2
  | a :: as, b :: bs, c :: cs, h1, h2 => by
      simp only [bufCmp] at h1 h2 ⊢
      rcases Nat.lt_trichotomy a b with hab | hab | hab
      · rcases Nat.lt_trichotomy b c with hbc | hbc | hbc
        · rw [if_pos (Nat.lt_trans hab hbc)]
          omega
        · subst hbc
          rw [if_pos hab]
          omega
        · rw [if_neg (Nat.lt_asymm hbc), if_pos hbc] at h2
          omega
      · subst hab
        rcases Nat.lt_trichotomy a c with hac | hac | hac
        · rw [if_pos hac]
          omega
        · subst hac
          rw [if_neg (Nat.lt_irrefl a), if_neg (Nat.lt_irrefl a)] at h1 h2 ⊢
          exact bufCmp_le_trans as bs cs h1 h2
        · rw [if_neg (Nat.lt_asymm hac), if_pos hac] at h2
          omega
      · rw [if_neg (Nat.lt_asymm hab), if_pos hab] at h1
        omega

/-- Each selected target contributes exactly two auxiliary addresses. -/
theorem flatMap_pair_length (f g : List Nat → List Nat) :
    ∀ l : List (List Nat), (l.flatMap fun k => [f k, g k]).length = 2 * l.length
  | [] => rfl
  | x :: xs => by
      simp only [List.flatMap_cons, List.length_append, flatMap_pair_length f g xs,
        List.length_cons, List.length_nil]
      omega

/-- When every selected target's lease record is present in the store, the
`pop` accumulation loop succeeds and returns the accumulator followed by the
lease/escrow pair of each target in order. -/
theorem popLoop_ok (leaseOf : List Nat → List Nat) (store : List Nat → Option LeaseRecord)
    (esc : List Nat → LeaseRecord) :
    ∀ (ks acc : List (List Nat)), (∀ k ∈ ks, store (leaseOf k) = some (esc k)) →
      popLoop leaseOf store acc ks =
        .ok (acc ++ ks.flatMap fun k => [leaseOf k, (esc k).escrow])
  | [], acc, _ => by simp [popLoop]
  | k :: ks, acc, h => by
      have hk : store (leaseOf k) = some (esc k) := h k (List.mem_cons_self k ks)
      have hrest : ∀ k2 ∈ ks, store (leaseOf k2) = some (esc k2) :=
        fun k2 hk2 => h k2 (List.mem_cons_of_mem k hk2)
      simp only [popLoop, hk]
      rw [popLoop_ok leaseOf store esc ks (acc ++ [leaseOf k, (esc k).escrow]) hrest]
      simp [List.flatMap_cons, List.append_assoc]

/-- When the store lacks the lease record of some target, the `pop`
accumulation loop aborts with the lease address of the first such target. -/
theorem popLoop_err (leaseOf : List Nat → List Nat) (store : List Nat → Option LeaseRecord) :
    ∀ (ks acc : List (List Nat)) (t : List Nat),
      ks.find? (fun k => (store (leaseOf k)).isNone) = some t →
      popLoop leaseOf store acc ks = .error (leaseOf t)
  | [], _, t, h => by simp [List.find?] at h
  | j :: js, acc, t, h => by
      cases hsj : store (leaseOf j) with
      | none =>
          have ht : t = j := by
            rw [List.find?] at h
            rw [hsj] at h
            simp at h
            exact h.symm
          subst ht
          simp [popLoop, hsj]
      | some lease =>
          have h2 : js.find? (fun k => (store (leaseOf k)).isNone) = some t := by
            rw [List.find?] at h
            rw [hsj] at h
            simpa using h
          simp only [popLoop, hsj]
          exact popLoop_err leaseOf store js (acc ++ [leaseOf j, lease.escrow]) t h2

/-- The first step of the bump search that returns a result characterizes it:
the bump is below the fuel, the address is the hash at that bump, the address
is off-curve, and every higher candidate below the fuel was on-curve. -/
theorem tryFindProgramAddress_some (create : List (List Nat) → List Nat → List Nat)
    (onCurve : List Nat → Bool) (seeds : List (List Nat)) (programId : List Nat) :
    ∀ (fuel : Nat) (addr : List Nat) (bump : Nat),
      tryFindProgramAddress create onCurve seeds programId fuel = some (addr, bump) →
        bump < fuel ∧ addr = create (seeds ++ [[bump]]) programId ∧
          onCurve addr = false ∧
          ∀ b2, bump < b2 → b2 < fuel → onCurve (create (seeds ++ [[b2]]) programId) = true
  | 0, addr, bump, h => by simp [tryFindProgramAddress] at h
  | fuel + 1, addr, bump, h => by
      simp only [tryFindProgramAddress] at h
      by_cases hc : onCurve (create (seeds ++ [[fuel]]) programId)
      · rw [if_pos hc] at h
        obtain ⟨hlt, haddr, hoc, hmax⟩ :=
          tryFindProgramAddress_some create onCurve seeds programId fuel addr bump h
        refine ⟨Nat.lt_succ_of_lt hlt, haddr, hoc, ?_⟩
        intro b2 hb2 hb2f
        rcases Nat.lt_succ_iff_lt_or_eq.mp hb2f with h2 | h2
        · exact hmax b2 hb2 h2
        · subst h2
          exact hc
      · rw [if_neg hc] at h
        simp only [Option.some.injEq, Prod.mk.injEq] at h
        obtain ⟨rfl, rfl⟩ := h
        refine ⟨Nat.lt_succ_self _, rfl, by simpa using hc, ?_⟩
        intro b2 hb2 hb2f
        omega

/-- Concrete 32-byte addresses for the concrete scenarios; `pkA < pkB < pkC`
in unsigned lexicographic byte order. -/
def pkA : List Nat := 1 :: List.replicate 31 0

/-- Second concrete address. -/
def pkB : List Nat := 2 :: List.replicate 31 0

/-- Third concrete address. -/
def pkC : List Nat := 3 :: List.replicate 31 0

/-- A crank with two entries due at the same time, stored in descending
address order. -/
def crankTie : CrankState := ⟨[⟨pkB, 100⟩, ⟨pkA, 100⟩], 2⟩

/-- A crank with a single entry due at unix second 100. -/
def crankLate : CrankState := ⟨[⟨pkA, 100⟩], 1⟩

/-- A crank with a single entry due at unix second 90. -/
def crankEarly : CrankState := ⟨[⟨pkA, 90⟩], 1⟩

/-- The spec's concrete scenario: entries A (due 100), B (due 90), C (due
200). -/
def crankScenario : CrankState := ⟨[⟨pkA, 100⟩, ⟨pkB, 90⟩, ⟨pkC, 200⟩], 3⟩

/-- C1: the claim states that `peakReady`'s output is sorted ascending by
unsigned lexicographic comparison of the raw address bytes.  The code violates
this: its final sort comparator `(a, b) => a.pubkey.toBytes() <
b.pubkey.toBytes()` returns a boolean (coerced to 0 or 1, never negative), so
the sort leaves the order unchanged, and the underlying relation compares
comma-joined decimal strings rather than raw bytes.  On a crank holding two
due entries in descending address order the output stays descending: `pkB`
precedes `pkA` although `pkA` is byte-lexicographically smaller. -/
theorem claim1_peakReady_output_not_byte_sorted :
    CrankAccount.peakReady crankTie 10 100000 = [pkB, pkA] ∧
      ¬ (CrankAccount.peakReady crankTie 10 100000).Pairwise
        (fun a b => bufCmp a b ≤ 0) := by
  constructor
  · decide
  · decide

/-- C2 counterexample: the claim states that the selector's reference time is
caller-supplied and the selector never reads the wall clock, so invocations
with identical arguments agree.  In the code `peakReady(n)` takes no time
argument and calls `Date.now()` itself: with the structure snapshot and `n`
fixed, two invocations observing wall-clock readings 90000 ms and 100000 ms
return different sequences. -/
theorem claim2_peakReady_wall_clock_counterexample :
    CrankAccount.peakReady crankEarly 10 90000 ≠
      CrankAccount.peakReady crankEarly 10 100000 := by
  decide

/-- C2 amended: `peakReady` reads the wall clock itself (its only parameter is
the limit `n`); it is a deterministic function of the structure snapshot, the
wall-clock second of the `Date.now()` reading, and the limit, so two
invocations on an unchanged structure whose clock readings fall in the same
second return identical sequences. -/
theorem claim2_peakReady_deterministic_same_second (crank : CrankState) (n : Nat)
    (t1 t2 : Nat) (h : t1 / 1000 = t2 / 1000) :
    CrankAccount.peakReady crank n t1 = CrankAccount.peakReady crank n t2 := by
  simp only [CrankAccount.peakReady, h]

/-- C2 witness: two clock readings within second 5 give the same output. -/
theorem claim2_peakReady_deterministic_same_second_witness :
    (5000 : Nat) / 1000 = (5999 : Nat) / 1000 ∧
      CrankAccount.peakReady crankLate 10 5000 = CrankAccount.peakReady crankLate 10 5999 :=
  ⟨by decide,
    claim2_peakReady_deterministic_same_second crankLate 10 5000 5999 (by decide)⟩

/-- The combined account multiset of `CrankAccount.pop`: the selected targets
followed by the lease and escrow address of each target. -/
def assembledList (leaseOf : List Nat → List Nat) (esc : List Nat → LeaseRecord)
    (selected : List (List Nat)) : List (List Nat) :=
  selected ++ selected.flatMap fun k => [leaseOf k, (esc k).escrow]

/-- C3: for every selected sequence of n targets whose lease records are all
present in the store, the `remainingAccounts` list assembled by
`CrankAccount.pop` has length exactly 3 × n (the targets plus one lease and
one escrow address per target) and is a permutation of that multiset sorted
ascending by raw byte comparison (`Buffer.compare`). -/
theorem claim3_popRemainingAccounts_sorted_triple (leaseOf : List Nat → List Nat)
    (store : List Nat → Option LeaseRecord) (esc : List Nat → LeaseRecord)
    (selected : List (List Nat))
    (h : ∀ k ∈ selected, store (leaseOf k) = some (esc k)) :
    CrankAccount.popRemainingAccounts leaseOf store selected =
        .ok (jsSort bufCmp (assembledList leaseOf esc selected)) ∧
      (jsSort bufCmp (assembledList leaseOf esc selected)).length = 3 * selected.length ∧
      (jsSort bufCmp (assembledList leaseOf esc selected)).Pairwise
        (fun a b => bufCmp a b ≤ 0) ∧
      (jsSort bufCmp (assembledList leaseOf esc selected)).Perm
        (assembledList leaseOf esc selected) := by
  refine ⟨?_, ?_, jsSort_pairwise bufCmp bufCmp_swap bufCmp_le_trans _, jsSort_perm bufCmp _⟩
  · unfold CrankAccount.popRemainingAccounts
    rw [popLoop_ok leaseOf store esc selected selected h]
    rfl
  · rw [(jsSort_perm bufCmp (assembledList leaseOf esc selected)).length_eq]
    unfold assembledList
    rw [List.length_append, flatMap_pair_length]
    omega

/-- The lease derivation used in the concrete `pop` scenarios. -/
def leaseOfW : List Nat → List Nat := fun k => 9 :: k

/-- A store holding the lease records of the two concrete targets. -/
def storeW : List Nat → Option LeaseRecord := fun a =>
  if a = 9 :: pkA then some ⟨[7]⟩ else if a = 9 :: pkB then some ⟨[6]⟩ else none

/-- The escrow addresses of the two concrete targets. -/
def escW : List Nat → LeaseRecord := fun k => if k = pkA then ⟨[7]⟩ else ⟨[6]⟩

/-- C3 witness: the assembly succeeds on the two concrete targets. -/
theorem claim3_popRemainingAccounts_sorted_triple_witness :
    storeW (leaseOfW pkA) = some (escW pkA) ∧ storeW (leaseOfW pkB) = some (escW pkB) ∧
      CrankAccount.popRemainingAccounts leaseOfW storeW [pkA, pkB] =
        .ok (jsSort bufCmp (assembledList leaseOfW escW [pkA, pkB])) :=
  ⟨by decide, by decide,
    (claim3_popRemainingAccounts_sorted_triple leaseOfW storeW escW [pkA, pkB]
      (by decide)).1⟩

/-- C4: the claim states that every address returned by `peakReady`
corresponds to an entry with dueAt ≤ now and that all due entries are
returned when the limit is large.  The code violates both directions, because
`item.nextTimestamp <= new BN(Math.floor(now / 1000))` compares two bn.js
objects with the JavaScript relational operator, which coerces them to
decimal strings: an entry due at second 100 is returned at now = second 20
(the string "100" precedes "20"), and an entry due at second 90 is missed at
now = second 150 (the string "90" follows "150"). -/
theorem claim4_peakReady_filter_diverges_from_due_filter :
    CrankAccount.peakReady crankLate 10 20000 = [pkA] ∧
      CrankAccount.peakReady crankEarly 10 150000 = [] := by
  constructor
  · decide
  · decide

/-- C5: the claim states that on {A: dueAt 100, B: dueAt 90, C: dueAt 200}
with now = 150 and limit 1 the selector returns [B].  The code returns [A]:
the string-coerced BN filter keeps only A ("100" ≤ "150" as strings, while
"90" and "200" are string-greater than "150"), and the boolean-comparator
sorts never reorder, so B is not even in the filtered set. -/
theorem claim5_limit_scenario_diverges :
    CrankAccount.peakReady crankScenario 1 150000 = [pkA] ∧ pkA ≠ pkB := by
  constructor
  · decide
  · decide

/-- C6: program-derived address derivation is a pure function of the hashing
primitive, the on-curve predicate, the seeds and the owning program identity:
invocations with the same inputs yield the same (address, bump) pair, and any
returned pair is characterized uniquely — the bump is at most 255, the address
is the hash of the seeds, the bump byte and the program identity, the address
is off-curve, and every higher bump candidate hashed on-curve.  This covers
`ProgramStateAccount.fromSeed` (seed "SB_STATE_V1") and
`LeaseAccount.fromSeed` (seed "lease_account" with the leaser and target
addresses). -/
theorem claim6_fromSeed_pure_function (create : List (List Nat) → List Nat → List Nat)
    (onCurve : List Nat → Bool) (programId leaser target : List Nat) :
    (ProgramStateAccount.fromSeed create onCurve programId =
        ProgramStateAccount.fromSeed create onCurve programId ∧
      LeaseAccount.fromSeed create onCurve programId leaser target =
        LeaseAccount.fromSeed create onCurve programId leaser target) ∧
    (∀ addr bump, ProgramStateAccount.fromSeed create onCurve programId = some (addr, bump) →
        bump ≤ 255 ∧ addr = create ([strBytes "SB_STATE_V1"] ++ [[bump]]) programId ∧
          onCurve addr = false ∧
          ∀ b2, bump < b2 → b2 ≤ 255 →
            onCurve (create ([strBytes "SB_STATE_V1"] ++ [[b2]]) programId) = true) ∧
    (∀ addr bump,
        LeaseAccount.fromSeed create onCurve programId leaser target = some (addr, bump) →
        bump ≤ 255 ∧
          addr = create ([strBytes "lease_account", leaser, target] ++ [[bump]]) programId ∧
          onCurve addr = false ∧
          ∀ b2, bump < b2 → b2 ≤ 255 →
            onCurve (create ([strBytes "lease_account", leaser, target] ++ [[b2]])
              programId) = true) := by
  refine ⟨⟨rfl, rfl⟩, ?_, ?_⟩
  · intro addr bump h
    obtain ⟨hlt, haddr, hoc, hmax⟩ :=
      tryFindProgramAddress_some create onCurve [strBytes "SB_STATE_V1"] programId 256
        addr bump h
    exact ⟨by omega, haddr, hoc, fun b2 hb2 hb2f => hmax b2 hb2 (by omega)⟩
  · intro addr bump h
    obtain ⟨hlt, haddr, hoc, hmax⟩ :=
      tryFindProgramAddress_some create onCurve [strBytes "lease_account", leaser, target]
        programId 256 addr bump h
    exact ⟨by omega, haddr, hoc, fun b2 hb2 hb2f => hmax b2 hb2 (by omega)⟩

/-- C7: if the remote store cannot return the lease record for the resolved
lease address of some selected target, the whole `pop` assembly fails with the
missing-account error for the lease address derived from the first such
target — the batch aborts; no list, and in particular no partially-assembled
list, is ever produced. -/
theorem claim7_pop_aborts_on_missing_record (leaseOf : List Nat → List Nat)
    (store : List Nat → Option LeaseRecord) (selected : List (List Nat)) (t : List Nat)
    (hfind : selected.find? (fun k => (store (leaseOf k)).isNone) = some t) :
    t ∈ selected ∧ store (leaseOf t) = none ∧
      CrankAccount.popRemainingAccounts leaseOf store selected = .error (leaseOf t) := by
  refine ⟨List.mem_of_find?_eq_some hfind, ?_, ?_⟩
  · have hp := List.find?_some hfind
    simpa using hp
  · unfold CrankAccount.popRemainingAccounts
    rw [popLoop_err leaseOf store selected selected t hfind]
    rfl

/-- An always-empty remote store. -/
def storeNone : List Nat → Option LeaseRecord := fun _ => none

/-- C7 witness: on the singleton batch [pkA] with an empty store, the
assembly aborts with the error naming pkA's lease address. -/
theorem claim7_pop_aborts_on_missing_record_witness :
    ([pkA].find? (fun k => (storeNone (leaseOfW k)).isNone) = some pkA) ∧
      pkA ∈ [pkA] ∧ storeNone (leaseOfW pkA) = none ∧
        CrankAccount.popRemainingAccounts leaseOfW storeNone [pkA] = .error (leaseOfW pkA) :=
  ⟨by decide,
    claim7_pop_aborts_on_missing_record leaseOfW storeNone [pkA] pkA (by decide)⟩

/-- C8: `SwitchboardDecimal.eq` is the structural comparison — true exactly
when the mantissas and the scales are both equal; it is reflexive, symmetric
and transitive, and (10, 2) is not equal to (1, 1) although both represent
the numeric value 0.1. -/
theorem claim8_switchboardDecimal_eq_structural : ∀ a b c : SwitchboardDecimal,
    (SwitchboardDecimal.eq a b = true ↔ a.mantissa = b.mantissa ∧ a.scale = b.scale) ∧
      SwitchboardDecimal.eq a a = true ∧
      (SwitchboardDecimal.eq a b = true → SwitchboardDecimal.eq b a = true) ∧
      (SwitchboardDecimal.eq a b = true → SwitchboardDecimal.eq b c = true →
        SwitchboardDecimal.eq a c = true) ∧
      SwitchboardDecimal.eq ⟨10, 2⟩ ⟨1, 1⟩ = false := by
  intro a b c
  refine ⟨?_, ?_, ?_, ?_, by decide⟩
  · simp [SwitchboardDecimal.eq]
  · simp [SwitchboardDecimal.eq]
  · simp only [SwitchboardDecimal.eq, Bool.and_eq_true, beq_iff_eq]
    rintro ⟨h1, h2⟩
    exact ⟨h1.symm, h2.symm⟩
  · simp only [SwitchboardDecimal.eq, Bool.and_eq_true, beq_iff_eq]
    rintro ⟨h1, h2⟩ ⟨h3, h4⟩
    exact ⟨h1.trans h3, h2.trans h4⟩

/-- C9: the account-wrapper constructor shared by all eight wrapper classes
errors exactly when neither `publicKey` nor `keypair` is supplied, or when
both are supplied and `publicKey` is not the identical object as
`keypair.publicKey` (reference comparison, so a byte-equal but distinct
object is rejected — the concrete conjunct); on success, the wrapper's
public key is the supplied `publicKey`, or the keypair's public key when no
`publicKey` was supplied — always defined. -/
theorem claim9_accountConstructor_validation :
    ∀ (className : String) (p : AccountParams),
      (isErr (accountConstructor className p) = true ↔
          (p.keypair = none ∧ p.publicKey = none) ∨
            ∃ kp pk, p.keypair = some kp ∧ p.publicKey = some pk ∧ pk ≠ kp.publicKey) ∧
        (∀ pk2, accountConstructor className p = .ok pk2 →
            p.publicKey = some pk2 ∨
              (p.publicKey = none ∧ ∃ kp, p.keypair = some kp ∧ pk2 = kp.publicKey)) ∧
        isErr (accountConstructor "AggregatorAccount"
          ⟨some ⟨1, List.replicate 32 0⟩, some ⟨⟨2, List.replicate 32 0⟩⟩⟩) = true := by
  intro className p
  obtain ⟨opk, okp⟩ := p
  refine ⟨?_, ?_, by decide⟩
  · cases okp with
    | none =>
        cases opk with
        | none => simp [accountConstructor, isErr]
        | some pk => simp [accountConstructor, isErr]
    | some kp =>
        cases opk with
        | none => simp [accountConstructor, isErr]
        | some pk =>
            by_cases hne : pk ≠ kp.publicKey
            · simp only [accountConstructor, if_pos hne, isErr]
              constructor
              · intro _
                exact Or.inr ⟨kp, pk, rfl, rfl, hne⟩
              · intro _
                trivial
            · simp only [accountConstructor, if_neg hne, isErr]
              push_neg at hne
              constructor
              · intro hfalse
                simp at hfalse
              · rintro (⟨h1, _⟩ | ⟨kp2, pk2, hkp2, hpk2, hne2⟩)
                · simp at h1
                · simp only [Option.some.injEq] at hkp2 hpk2
                  subst hkp2
                  subst hpk2
                  exact absurd hne hne2
  · intro pk2 hok
    cases okp with
    | none =>
        cases opk with
        | none => simp [accountConstructor] at hok
        | some pk =>
            simp only [accountConstructor, Except.ok.injEq] at hok
            subst hok
            exact Or.inl rfl
    | some kp =>
        cases opk with
        | none =>
            simp only [accountConstructor, Except.ok.injEq] at hok
            exact Or.inr ⟨rfl, kp, rfl, hok.symm⟩
        | some pk =>
            by_cases hne : pk ≠ kp.publicKey
            · simp only [accountConstructor, if_pos hne] at hok
              simp at hok
            · simp only [accountConstructor, if_neg hne, Except.ok.injEq] at hok
              subst hok
              exact Or.inl rfl

end SBV2
